import Mathlib

/-!
Shallow embedding of `pagerank.py`.

Python `dict`s preserve insertion order and are modelled as association
lists; Python `set`s of links are modelled as duplicate-free lists (the
code only uses their length and membership); Python floats are modelled
as exact rationals; a Python exception is modelled as `Except Unit`;
the random primitives (`random.choice`, `random.choices`) are abstracted
by an oracle `pick : ℕ → ℕ` giving the index drawn at each step.
-/

namespace PageRank

abbrev Page := String

abbrev Corpus := List (Page × List Page)

/-- Keys of a Python dict, in insertion order. -/
def keys (corpus : Corpus) : List Page := corpus.map (·.1)

/-- Python `corpus.get(page)`: `None` when `page` is not a key. -/
def lookupLinks : Corpus → Page → Option (List Page)
  | [], _ => none
  | (q, ls) :: rest, p => if q = p then some ls else lookupLinks rest p

/-- The module constant `SAMPLES = 10000`. -/
def SAMPLES : ℕ := 10000

/-- The module constant `DAMPING = 0.85`. -/
def DAMPING : ℚ := 17 / 20

/-- One loop iteration of `transition_model`: the value stored for key
`website` whose own link set is `links`.  Mirrors

```
if len(links) == 0:
    results_dict[website] = 1 / num_websites
elif (website == page) or (website not in page_links):
    results_dict[website] = (1 - damping_factor) / num_websites
else:
    results_dict[website] = (1 - damping_factor) / num_websites
                            + damping_factor / len(page_links)
```

where `page_links = corpus.get(page)`.  When `page_links` is `None` and
the membership test is reached, Python raises `TypeError`; that is the
`.error` case. -/
def tmEntry (N : ℚ) (page_links : Option (List Page)) (page : Page) (d : ℚ)
    (website : Page) (links : List Page) : Except Unit ℚ :=
  if links.length = 0 then .ok (1 / N)
  else if website = page then .ok ((1 - d) / N)
  else
    match page_links with
    | none => .error ()
    | some pl =>
      if website ∈ pl then .ok ((1 - d) / N + d / (pl.length : ℚ))
      else .ok ((1 - d) / N)

/-- The `for website, links in corpus.items()` loop of `transition_model`,
building `results_dict` in key order and raising at the first failing
iteration. -/
def tmList (N : ℚ) (page_links : Option (List Page)) (page : Page) (d : ℚ) :
    Corpus → Except Unit (List (Page × ℚ))
  | [] => .ok []
  | (w, ls) :: rest =>
    match tmEntry N page_links page d w ls with
    | .error e => .error e
    | .ok v =>
      match tmList N page_links page d rest with
      | .error e => .error e
      | .ok vs => .ok ((w, v) :: vs)

/-- `transition_model(corpus, page, damping_factor)`. -/
def transition_model (corpus : Corpus) (page : Page) (d : ℚ) :
    Except Unit (List (Page × ℚ)) :=
  tmList (corpus.length : ℚ) (lookupLinks corpus page) page d corpus

/-- Sum of the values of a returned dict (`sum(dict.values())`). -/
def sumValues (l : List (Page × ℚ)) : ℚ := (l.map (·.2)).sum

/-- The sampling loop `for x in range(1, n)`: at counter `x` the code
computes `transition_model(corpus, page, damping_factor)` (so an exception
there propagates), then draws the next page from `websites`; the draw by
`random.choices` is abstracted by the oracle index `pick x` reduced modulo
`len(websites)`.  Returns the list of drawn pages, in order. -/
def walkSteps (pick : ℕ → ℕ) (corpus : Corpus) (d : ℚ) (websites : List Page) :
    ℕ → ℕ → Page → Except Unit (List Page)
  | 0, _, _ => .ok []
  | steps + 1, x, page =>
    match transition_model corpus page d with
    | .error e => .error e
    | .ok _prediction =>
      match websites.get? (pick x % websites.length) with
      | none => .error ()
      | some next =>
        match walkSteps pick corpus d websites steps (x + 1) next with
        | .error e => .error e
        | .ok rest => .ok (next :: rest)

/-- Keys of `Counter(samples)` in iteration order: first occurrences. -/
def firstOccurrences (l : List Page) : List Page :=
  l.foldl (fun acc p => if p ∈ acc then acc else acc ++ [p]) []

/-- `sample_pagerank(corpus, damping_factor, n)` with the random draws
given by the oracle `pick` (`pick 0` is the initial `random.choice`).
`random.choice` on an empty list raises `IndexError` (the `.error` case).
Note the final division is by the module constant `SAMPLES`, exactly as in
`sample_PR_results[website] = count / SAMPLES`. -/
def sample_pagerank (pick : ℕ → ℕ) (corpus : Corpus) (d : ℚ) (n : ℕ) :
    Except Unit (List (Page × ℚ)) :=
  let websites := keys corpus
  match websites.get? (pick 0 % websites.length) with
  | none => .error ()
  | some page₀ =>
    match walkSteps pick corpus d websites (n - 1) 1 page₀ with
    | .error e => .error e
    | .ok rest =>
      let samples := page₀ :: rest
      .ok ((firstOccurrences samples).map
        (fun w => (w, (samples.count w : ℚ) / (SAMPLES : ℚ))))

/-- The initial ranks of `iterate_pagerank`: `1 / len(corpus)` for every
page. -/
def initRank (corpus : Corpus) : Page → ℚ := fun _ => 1 / (corpus.length : ℚ)

/-- The inner `for possible_page in corpus` accumulation of
`iterate_pagerank`, as a function of the previous sweep's ranks `pr`:

```
total = 0
for possible_page in corpus:
    if page in corpus[possible_page]:
        total += pagerank[possible_page] / len(corpus[possible_page])
    if len(corpus[possible_page]) == 0:
        total += pagerank[possible_page] / len(corpus)
```
-/
def contribution (corpus : Corpus) (pr : Page → ℚ) (page : Page) : ℚ :=
  (corpus.map (fun e =>
    (if page ∈ e.2 then pr e.1 / (e.2.length : ℚ) else 0) +
    (if e.2.length = 0 then pr e.1 / (corpus.length : ℚ) else 0))).sum

/-- One full synchronous sweep: `new_rank[page] = (1 - damping_factor) /
len(corpus) + damping_factor * total`, computed for every page from the
previous ranks `pr` only. -/
def sweep (corpus : Corpus) (d : ℚ) (pr : Page → ℚ) : Page → ℚ :=
  fun page => (1 - d) / (corpus.length : ℚ) + d * contribution corpus pr page

/-- The convergence test made after a full sweep: `stop` stays `True` iff
no page moved by more than `0.001`. -/
def convergedB (corpus : Corpus) (old nw : Page → ℚ) : Bool :=
  corpus.all (fun e => decide (|old e.1 - nw e.1| ≤ 1 / 1000))

/-- The `while stop == False` loop, with explicit fuel so the model is
total; `none` means the fuel ran out before convergence (the Python loop
would still be running). -/
def iterLoop (corpus : Corpus) (d : ℚ) : ℕ → (Page → ℚ) → Option (Page → ℚ)
  | 0, _ => none
  | fuel + 1, pr =>
    let nr := sweep corpus d pr
    if convergedB corpus pr nr then some nr else iterLoop corpus d fuel nr

/-- `iterate_pagerank(corpus, damping_factor)`: the returned dict has the
corpus keys in order, valued at the converged ranks. -/
def iterate_pagerank (fuel : ℕ) (corpus : Corpus) (d : ℚ) :
    Option (List (Page × ℚ)) :=
  (iterLoop corpus d fuel (initRank corpus)).map
    (fun r => corpus.map (fun e => (e.1, r e.1)))

/-- The module-level mutable context of `pagerank.py`: the only process
state the estimators could touch is the random generator's position. -/
structure ProgState where
  rngPos : ℕ
deriving DecidableEq

/-- Stateful embedding of `iterate_pagerank`: its body reads no module
global and calls no random primitive, so it returns the state unchanged. -/
def iterate_pagerank_st (s : ProgState) (fuel : ℕ) (corpus : Corpus) (d : ℚ) :
    ProgState × Option (List (Page × ℚ)) :=
  (s, iterate_pagerank fuel corpus d)

/-- Stateful embedding of `sample_pagerank` over a fixed random stream
`stream`: it advances the generator by the `n` draws it makes. -/
def sample_pagerank_st (stream : ℕ → ℕ) (s : ProgState) (corpus : Corpus)
    (d : ℚ) (n : ℕ) : ProgState × Except Unit (List (Page × ℚ)) :=
  (⟨s.rngPos + n⟩, sample_pagerank (fun i => stream (s.rngPos + i)) corpus d n)

/-- The first loop of `crawl(directory)`, after the I/O boundary.  The
directory is abstracted as the listing `files`: for each file, its name
and the list of href values the regex extracts from its contents.  Only
`.html` files become keys, and each key's value is `set(links) -
{filename}` (modelled as dedup plus removal of the filename). -/
def crawlExtract (files : List (Page × List Page)) : Corpus :=
  (files.filter (fun e => e.1.endsWith ".html")).map
    (fun e => (e.1, e.2.dedup.filter (fun l => decide (l ≠ e.1))))

/-- `crawl(directory)`: the second loop keeps only links that target
pages of the corpus (`if link in pages`). -/
def crawl (files : List (Page × List Page)) : Corpus :=
  (crawlExtract files).map
    (fun e => (e.1, e.2.filter (fun l => decide (l ∈ keys (crawlExtract files)))))

/-- The Graph invariant of the spec, as a decidable check: every link
target is a key of the graph and no page links to itself. -/
def graphInvariant (g : Corpus) : Bool :=
  g.all (fun e => e.2.all (fun l => decide (l ∈ keys g) && decide (l ≠ e.1)))

/-- A well-formed corpus in the sense of the Graph invariant, together
with the dict/set representation constraints: distinct keys, duplicate-free
link sets, and all link targets are keys. -/
def wellFormed (corpus : Corpus) : Prop :=
  (keys corpus).Nodup ∧ ∀ e ∈ corpus, e.2.Nodup ∧ ∀ l ∈ e.2, l ∈ keys corpus

/-- The two-page graph `{A: {B}, B: {}}` with B dangling. -/
def corpusAB : Corpus := [("A", ["B"]), ("B", [])]

/-- The bidirectional two-page graph `{A: {B}, B: {A}}`. -/
def corpusCycle : Corpus := [("A", ["B"]), ("B", ["A"])]

/-- The all-dangling two-page graph `{A: {}, B: {}}`. -/
def corpusDangling : Corpus := [("A", []), ("B", [])]

/-- The one-page graph `{A: {}}`. -/
def corpusSingle : Corpus := [("A", [])]

/-! ### Helper lemmas -/

lemma pageAB : ("A" : Page) ≠ "B" := by decide

lemma pageBA : ("B" : Page) ≠ "A" := by decide

lemma pageAZ : ("A" : Page) ≠ "Z" := by decide

lemma pageBZ : ("B" : Page) ≠ "Z" := by decide

lemma sum_map_add {α : Type} (l : List α) (f g : α → ℚ) :
    (l.map (fun x => f x + g x)).sum = (l.map f).sum + (l.map g).sum := by
  induction l with
  | nil => simp
  | cons a t ih => simp only [List.map_cons, List.sum_cons, ih]; ring

lemma sum_map_const {α : Type} (l : List α) (c : ℚ) :
    (l.map (fun _ => c)).sum = (l.length : ℚ) * c := by
  induction l with
  | nil => simp
  | cons a t ih => simp only [List.map_cons, List.sum_cons, ih,
      List.length_cons]; push_cast; ring

lemma sum_comm' {α β : Type} (l₁ : List α) (l₂ : List β) (F : α → β → ℚ) :
    (l₁.map (fun a => (l₂.map (F a)).sum)).sum =
      (l₂.map (fun b => (l₁.map (fun a => F a b)).sum)).sum := by
  induction l₁ with
  | nil => simp [sum_map_const]
  | cons a t ih =>
    simp only [List.map_cons, List.sum_cons, ih, ← sum_map_add]

lemma sum_map_indicator (l ls : List Page) (c : ℚ) :
    (l.map (fun p => if p ∈ ls then c else 0)).sum =
      ((l.filter (fun p => decide (p ∈ ls))).length : ℚ) * c := by
  induction l with
  | nil => simp
  | cons a t ih =>
    by_cases h : a ∈ ls
    · rw [List.map_cons, List.sum_cons, if_pos h, ih,
        List.filter_cons_of_pos (by simpa using h), List.length_cons]
      push_cast; ring
    · rw [List.map_cons, List.sum_cons, if_neg h, ih,
        List.filter_cons_of_neg (by simpa using h)]
      ring

lemma filter_mem_length (keysl ls : List Page) (hk : keysl.Nodup)
    (hl : ls.Nodup) (hsub : ∀ l ∈ ls, l ∈ keysl) :
    (keysl.filter (fun p => decide (p ∈ ls))).length = ls.length := by
  have h1 : (keysl.filter (fun p => decide (p ∈ ls))).Nodup := hk.filter _
  have h2 : ∀ a, a ∈ keysl.filter (fun p => decide (p ∈ ls)) ↔ a ∈ ls := by
    intro a
    rw [List.mem_filter]
    constructor
    · rintro ⟨-, h⟩; exact of_decide_eq_true h
    · intro h; exact ⟨hsub a h, decide_eq_true h⟩
  exact ((List.perm_ext_iff_of_nodup h1 hl).2 h2).length_eq

/-! ### Theorems about the claims -/

/-- C1 (code_bug evidence): on the graph `{A: {B}, B: {}}` with the
default damping 0.85 and current page `A` (a key, graph well-formed, d in
(0,1)), the returned values sum to 23/40, which is farther than 1e-9 from
1: the dangling test `len(links) == 0` inspects the iterated website's
links instead of the current page's, so the claimed normalization fails. -/
theorem transition_model_sum_not_one :
    transition_model corpusAB "A" DAMPING = .ok [("A", 3/40), ("B", 1/2)] ∧
    sumValues [("A", 3/40), ("B", 1/2)] = 23/40 ∧
    ¬ (|(23/40 : ℚ) - 1| ≤ 1/1000000000) := by
  refine ⟨?_, by norm_num [sumValues], by rw [abs_sub_comm]; norm_num [abs_of_nonneg]⟩
  norm_num [transition_model, tmList, tmEntry, lookupLinks, corpusAB, DAMPING,
    keys, pageAB, pageBA]

/-- C2 (code_bug evidence): for the dangling current page `B` of
`{A: {B}, B: {}}` with d = 0.85, the code assigns `(1-d)/N = 3/40` to the
non-dangling page `A` instead of the claimed uniform `1/N = 1/2` (and the
value depends on d). -/
theorem transition_model_dangling_not_uniform :
    transition_model corpusAB "B" DAMPING = .ok [("A", 3/40), ("B", 1/2)] ∧
    (3/40 : ℚ) ≠ 1/2 := by
  refine ⟨?_, by norm_num⟩
  norm_num [transition_model, tmList, tmEntry, lookupLinks, corpusAB, DAMPING,
    pageAB, pageBA]

/-- C3 (code_bug evidence): for the non-dangling current page `A` of
`{A: {B}, B: {}}` with d = 0.85 and L = 1, the linked page `B` receives
`1/2` (because `B` is itself dangling) instead of the claimed
`(1-d)/N + d/L = 37/40`. -/
theorem transition_model_linked_not_boosted :
    transition_model corpusAB "A" DAMPING = .ok [("A", 3/40), ("B", 1/2)] ∧
    (1/2 : ℚ) ≠ (1 - DAMPING) / 2 + DAMPING / 1 := by
  refine ⟨?_, by norm_num [DAMPING]⟩
  norm_num [transition_model, tmList, tmEntry, lookupLinks, corpusAB, DAMPING,
    pageAB, pageBA]

/-- C4 (code_bug evidence): sampling `{A: {B}, B: {A}}` with n = 2 and an
oracle that always draws index 0 walks `A, A`; the returned estimate for
`A` is `2 / SAMPLES = 1/5000`, not the claimed `count / n = 2/2 = 1`. -/
theorem sample_pagerank_divides_by_module_constant :
    sample_pagerank (fun _ => 0) corpusCycle DAMPING 2 =
      .ok [("A", 1/5000)] ∧ (1/5000 : ℚ) ≠ 2/2 := by
  refine ⟨?_, by norm_num⟩
  norm_num [sample_pagerank, walkSteps, transition_model, tmList, tmEntry,
    lookupLinks, corpusCycle, DAMPING, keys, firstOccurrences, SAMPLES,
    List.count_cons, List.count_nil, pageAB, pageBA]

/-- A key absent from the dict makes `corpus.get(page)` return `None`. -/
lemma lookupLinks_eq_none (corpus : Corpus) (page : Page)
    (h : page ∉ keys corpus) : lookupLinks corpus page = none := by
  induction corpus with
  | nil => rfl
  | cons a t ih =>
    obtain ⟨w, ls⟩ := a
    simp only [keys, List.map_cons, List.mem_cons] at h
    push_neg at h
    obtain ⟨h1, h2⟩ := h
    simp only [lookupLinks]
    rw [if_neg (fun hw => h1 hw.symm)]
    exact ih (by simpa [keys] using h2)

/-- A dangling website is served by the first branch of the loop body,
without consulting `page_links`. -/
lemma tmEntry_dangling (N d : ℚ) (pl : Option (List Page)) (page w : Page) :
    tmEntry N pl page d w [] = .ok (1 / N) := by
  simp [tmEntry]

/-- A non-dangling website other than the current page reaches the
membership test; with `page_links = None` that raises `TypeError`. -/
lemma tmEntry_none_error (N d : ℚ) (page w : Page) (x : Page)
    (xs : List Page) (hw : w ≠ page) :
    tmEntry N none page d w (x :: xs) = .error () := by
  simp only [tmEntry]
  rw [if_neg (by simp), if_neg hw]

/-- With `page_links = None`, the dict loop raises at its first
non-dangling entry (no entry key equals the missing page). -/
lemma tmList_none_error (N d : ℚ) (page : Page) :
    ∀ l : Corpus, (∀ e ∈ l, e.1 ≠ page) → (∃ e ∈ l, e.2 ≠ []) →
      tmList N none page d l = .error () := by
  intro l
  induction l with
  | nil => intro _ hnd; simp at hnd
  | cons a t ih =>
    intro hpage hnd
    obtain ⟨w, ls⟩ := a
    rcases ls with _ | ⟨x, xs⟩
    · have hnd' : ∃ e ∈ t, e.2 ≠ [] := by
        obtain ⟨e, he, hne⟩ := hnd
        rcases List.mem_cons.1 he with rfl | hmem
        · simp at hne
        · exact ⟨e, hmem, hne⟩
      have ht := ih (fun e he => hpage e (List.mem_cons_of_mem _ he)) hnd'
      simp only [tmList, tmEntry_dangling, ht]
    · have he1 : tmEntry N none page d w (x :: xs) = .error () :=
        tmEntry_none_error N d page w x xs
          (hpage (w, x :: xs) (List.mem_cons_self _ _))
      simp only [tmList, he1]

/-- On an all-dangling corpus the loop never reaches the membership test
and returns the uniform dict, whatever `page_links` is. -/
lemma tmList_all_dangling (N d : ℚ) (page : Page) (pl : Option (List Page)) :
    ∀ l : Corpus, (∀ e ∈ l, e.2 = []) →
      tmList N pl page d l = .ok (l.map (fun e => (e.1, 1 / N))) := by
  intro l
  induction l with
  | nil => intro _; rfl
  | cons a t ih =>
    intro h
    obtain ⟨w, ls⟩ := a
    have hls : ls = [] := h (w, ls) (List.mem_cons_self _ _)
    subst hls
    have ht := ih (fun e he => h e (List.mem_cons_of_mem _ he))
    simp only [tmList, tmEntry_dangling, ht, List.map_cons]

/-- C7 (counterexample): on the empty graph, and equally for a current
page that is not a key of an all-dangling graph, `transition_model`
returns a dict normally instead of aborting with an error signal. -/
theorem transition_model_invalid_input_returns :
    transition_model [] "A" DAMPING = .ok ([] : List (Page × ℚ)) ∧
    transition_model corpusDangling "Z" DAMPING =
      .ok [("A", 1/2), ("B", 1/2)] := by
  refine ⟨rfl, ?_⟩
  norm_num [transition_model, tmList, tmEntry, lookupLinks, corpusDangling,
    pageAZ, pageBZ]

/-- C7 (amended): `sample_pagerank` does abort on an empty graph
(`random.choice` raises `IndexError`), but `transition_model` and
`iterate_pagerank` return an empty mapping on the empty graph without
error; for a current page that is not a graph key, `transition_model`
aborts (`TypeError` on the membership test against `None`) whenever the
corpus contains a non-dangling page, yet returns the uniform distribution
normally whenever every page is dangling. -/
theorem invalid_input_behavior :
    (∀ (p : Page) (d : ℚ), transition_model [] p d = .ok []) ∧
    (∀ (fuel : ℕ) (d : ℚ), iterate_pagerank (fuel + 1) [] d = some []) ∧
    (∀ (pick : ℕ → ℕ) (d : ℚ) (n : ℕ),
      sample_pagerank pick [] d n = .error ()) ∧
    (∀ (corpus : Corpus) (page : Page) (d : ℚ),
      page ∉ keys corpus → (∃ e ∈ corpus, e.2 ≠ []) →
      transition_model corpus page d = .error ()) ∧
    (∀ (corpus : Corpus) (page : Page) (d : ℚ),
      (∀ e ∈ corpus, e.2 = []) →
      transition_model corpus page d =
        .ok (corpus.map (fun e => (e.1, 1 / (corpus.length : ℚ))))) := by
  refine ⟨fun _ _ => rfl, fun _ _ => rfl, fun _ _ _ => rfl, ?_, ?_⟩
  · intro corpus page d hpage hnd
    rw [transition_model, lookupLinks_eq_none corpus page hpage]
    exact tmList_none_error _ d page corpus
      (fun e he hk => hpage (hk ▸ List.mem_map_of_mem (·.1) he)) hnd
  · intro corpus page d h
    rw [transition_model]
    exact tmList_all_dangling _ d page _ corpus h

/-- C7 witness: the two quantified missing-page clauses of the amended
claim, instantiated at concrete graphs with their hypotheses discharged:
on `{A: {B}, B: {}}` the missing page `Z` aborts, on `{A: {}, B: {}}` it
returns the uniform dict. -/
theorem invalid_input_behavior_witness :
    transition_model corpusAB "Z" DAMPING = .error () ∧
    transition_model corpusDangling "Z" DAMPING =
      .ok [("A", 1/2), ("B", 1/2)] := by
  constructor
  · exact invalid_input_behavior.2.2.2.1 corpusAB "Z" DAMPING (by decide)
      ⟨("A", ["B"]), by decide, by decide⟩
  · rw [invalid_input_behavior.2.2.2.2 corpusDangling "Z" DAMPING
      (by decide)]
    norm_num [corpusDangling]

/-- Replacing every value of an association list leaves the keys alone. -/
lemma keys_map_snd (g : Corpus) (f : (Page × List Page) → List Page) :
    keys (g.map (fun e => (e.1, f e))) = keys g := by
  simp [keys, List.map_map, Function.comp]

/-- C9: whatever the directory contents, the graph built by `crawl`
satisfies the Graph invariant: every link target is itself a key, and no
page links to itself. -/
theorem crawl_satisfies_graph_invariant (files : List (Page × List Page)) :
    graphInvariant (crawl files) = true := by
  simp only [graphInvariant, List.all_eq_true]
  intro e he l hl
  rw [crawl] at he
  obtain ⟨a, ha, rfl⟩ := List.mem_map.1 he
  rw [List.mem_filter, decide_eq_true_eq] at hl
  obtain ⟨hla, hlk⟩ := hl
  rw [Bool.and_eq_true, decide_eq_true_eq, decide_eq_true_eq]
  refine ⟨?_, ?_⟩
  · rw [crawl, keys_map_snd]
    exact hlk
  · rw [crawlExtract] at ha
    obtain ⟨b, hb, rfl⟩ := List.mem_map.1 ha
    rw [List.mem_filter, decide_eq_true_eq] at hla
    exact hla.2

/-- Characterization of the iteration loop: a returned value is the k-fold
synchronous sweep of the start ranks, for the first k at which the sweep
moved every page by at most 0.001, with every earlier sweep failing that
test. -/
lemma iterLoop_characterization (corpus : Corpus) (d : ℚ) :
    ∀ (fuel : ℕ) (pr r : Page → ℚ), iterLoop corpus d fuel pr = some r →
      ∃ k, 1 ≤ k ∧ r = (sweep corpus d)^[k] pr ∧
        convergedB corpus ((sweep corpus d)^[k - 1] pr)
          ((sweep corpus d)^[k] pr) = true ∧
        ∀ j, j + 1 < k →
          convergedB corpus ((sweep corpus d)^[j] pr)
            ((sweep corpus d)^[j + 1] pr) = false := by
  intro fuel
  induction fuel with
  | zero => intro pr r h; simp [iterLoop] at h
  | succ n ih =>
    intro pr r h
    rw [iterLoop] at h
    by_cases hc : convergedB corpus pr (sweep corpus d pr) = true
    · rw [if_pos hc] at h
      obtain rfl : sweep corpus d pr = r := Option.some.inj h
      refine ⟨1, le_refl 1, by simp, by simpa using hc, ?_⟩
      intro j hj; omega
    · rw [if_neg hc] at h
      obtain ⟨k, hk1, hr, hconv, hprev⟩ := ih (sweep corpus d pr) r h
      have hit : ∀ m : ℕ, (sweep corpus d)^[m] (sweep corpus d pr) =
          (sweep corpus d)^[m + 1] pr := by
        intro m; rw [Function.iterate_succ_apply]
      refine ⟨k + 1, by omega, ?_, ?_, ?_⟩
      · rw [hr, hit]
      · have h1 : (sweep corpus d)^[k - 1] (sweep corpus d pr) =
            (sweep corpus d)^[k] pr := by
          rw [hit, Nat.sub_add_cancel hk1]
        rw [Nat.add_sub_cancel, ← h1, ← hit]
        exact hconv
      · intro j hj
        cases j with
        | zero =>
          simpa using Bool.eq_false_iff.2 (fun hx => hc hx)
        | succ j' =>
          rw [← hit, ← hit]
          exact hprev j' (by omega)

/-- C6: whenever `iterate_pagerank` returns a result, that result is the
k-fold synchronous sweep of the uniform start ranks — each sweep a pure
function of the previous sweep's ranks only — where k is exactly the
first sweep after which every page's absolute change is at most 0.001
(the check made after the full sweep), every earlier sweep failing it. -/
theorem iterate_pagerank_synchronous_first_converged
    (fuel : ℕ) (corpus : Corpus) (d : ℚ) (res : List (Page × ℚ))
    (h : iterate_pagerank fuel corpus d = some res) :
    ∃ k, 1 ≤ k ∧
      res = corpus.map
        (fun e => (e.1, (sweep corpus d)^[k] (initRank corpus) e.1)) ∧
      convergedB corpus ((sweep corpus d)^[k - 1] (initRank corpus))
        ((sweep corpus d)^[k] (initRank corpus)) = true ∧
      ∀ j, j + 1 < k →
        convergedB corpus ((sweep corpus d)^[j] (initRank corpus))
          ((sweep corpus d)^[j + 1] (initRank corpus)) = false := by
  rw [iterate_pagerank] at h
  cases hl : iterLoop corpus d fuel (initRank corpus) with
  | none => rw [hl] at h; simp at h
  | some r =>
    rw [hl] at h
    obtain rfl : corpus.map (fun e => (e.1, r e.1)) = res := Option.some.inj h
    obtain ⟨k, hk1, hr, hconv, hprev⟩ :=
      iterLoop_characterization corpus d fuel (initRank corpus) r hl
    exact ⟨k, hk1, by rw [hr], hconv, hprev⟩

lemma sum_map_congr {α : Type} (l : List α) (f g : α → ℚ)
    (h : ∀ a ∈ l, f a = g a) : (l.map f).sum = (l.map g).sum := by
  induction l with
  | nil => simp
  | cons a t ih =>
    rw [List.map_cons, List.map_cons, List.sum_cons, List.sum_cons,
      h a (List.mem_cons_self a t), ih (fun b hb => h b (List.mem_cons_of_mem a hb))]

lemma sum_over_keys (corpus : Corpus) (f : Page → ℚ) :
    ((keys corpus).map f).sum = (corpus.map (fun e => f e.1)).sum := by
  simp [keys, List.map_map, Function.comp_def]

lemma corpus_length_ne_zero {corpus : Corpus} (hne : corpus ≠ []) :
    ((corpus.length : ℕ) : ℚ) ≠ 0 := by
  have h : corpus.length ≠ 0 := by
    simpa [List.length_eq_zero] using hne
  exact_mod_cast h

/-- Exact-arithmetic mass conservation of one synchronous sweep: on a
well-formed non-empty corpus, if the previous ranks sum to 1 over the
corpus keys, so do the newly computed ranks. -/
lemma sweep_sum (corpus : Corpus) (d : ℚ) (pr : Page → ℚ)
    (hne : corpus ≠ []) (hwf : wellFormed corpus)
    (hsum : ((keys corpus).map pr).sum = 1) :
    ((keys corpus).map (sweep corpus d pr)).sum = 1 := by
  have hN := corpus_length_ne_zero hne
  have hentry : ∀ e ∈ corpus, ((keys corpus).map (fun p =>
      (if p ∈ e.2 then pr e.1 / (e.2.length : ℚ) else 0) +
      (if e.2.length = 0 then pr e.1 / (corpus.length : ℚ) else 0))).sum
        = pr e.1 := by
    intro e he
    obtain ⟨hnd, hsub⟩ := hwf.2 e he
    rw [sum_map_add]
    rcases eq_or_ne e.2.length 0 with hz | hz
    · have h2 : e.2 = [] := List.length_eq_zero.1 hz
      rw [h2]
      have hfst : ((keys corpus).map
          (fun p => if p ∈ ([] : List Page) then pr e.1 / (([] : List Page).length : ℚ) else 0)).sum = 0 := by
        simp
      have hsnd : ((keys corpus).map
          (fun _ => if ([] : List Page).length = 0 then pr e.1 / (corpus.length : ℚ) else 0)).sum
            = ((keys corpus).length : ℚ) * (pr e.1 / (corpus.length : ℚ)) := by
        rw [sum_map_const]
        simp
      rw [hfst, hsnd]
      have hkl : ((keys corpus).length : ℚ) = ((corpus.length : ℕ) : ℚ) := by
        simp [keys]
      rw [hkl]
      field_simp
    · have hLQ : ((e.2.length : ℕ) : ℚ) ≠ 0 := by exact_mod_cast hz
      have hfst : ((keys corpus).map
          (fun p => if p ∈ e.2 then pr e.1 / (e.2.length : ℚ) else 0)).sum
            = (e.2.length : ℚ) * (pr e.1 / (e.2.length : ℚ)) := by
        rw [sum_map_indicator]
        rw [filter_mem_length (keys corpus) e.2 hwf.1 hnd hsub]
      have hsnd : ((keys corpus).map
          (fun _ => if e.2.length = 0 then pr e.1 / (corpus.length : ℚ) else 0)).sum = 0 := by
        rw [sum_map_const, if_neg hz, mul_zero]
      rw [hfst, hsnd]
      field_simp
  have hcontrib : ((keys corpus).map (contribution corpus pr)).sum = 1 := by
    have hswap := sum_comm' (keys corpus) corpus (fun p e =>
      (if p ∈ e.2 then pr e.1 / (e.2.length : ℚ) else 0) +
      (if e.2.length = 0 then pr e.1 / (corpus.length : ℚ) else 0))
    rw [show ((keys corpus).map (contribution corpus pr)).sum =
        ((keys corpus).map (fun p => (corpus.map (fun e =>
          (if p ∈ e.2 then pr e.1 / (e.2.length : ℚ) else 0) +
          (if e.2.length = 0 then pr e.1 / (corpus.length : ℚ) else 0))).sum)).sum
      from rfl]
    rw [hswap, sum_map_congr corpus _ (fun e => pr e.1) hentry, ← sum_over_keys, hsum]
  have hsplit : ((keys corpus).map (sweep corpus d pr)).sum =
      ((keys corpus).map (fun _ => (1 - d) / (corpus.length : ℚ))).sum +
      ((keys corpus).map (fun p => d * contribution corpus pr p)).sum := by
    rw [← sum_map_add]
    rfl
  rw [hsplit, sum_map_const, List.sum_map_mul_left, hcontrib]
  have hkl : ((keys corpus).length : ℚ) = ((corpus.length : ℕ) : ℚ) := by
    simp [keys]
  rw [hkl]
  field_simp

/-- C10: total rank mass is a loop invariant of `iterate_pagerank` in
exact arithmetic: one sweep maps unit-mass rank vectors to unit-mass rank
vectors, the uniform start has unit mass, every intermediate sweep has
unit mass, and whatever the function returns sums to 1. -/
theorem iterate_pagerank_mass_conserved (corpus : Corpus) (d : ℚ)
    (hne : corpus ≠ []) (hwf : wellFormed corpus) :
    (∀ pr : Page → ℚ, ((keys corpus).map pr).sum = 1 →
        ((keys corpus).map (sweep corpus d pr)).sum = 1) ∧
    ((keys corpus).map (initRank corpus)).sum = 1 ∧
    (∀ k : ℕ, ((keys corpus).map
        ((sweep corpus d)^[k] (initRank corpus))).sum = 1) ∧
    (∀ (fuel : ℕ) (res : List (Page × ℚ)),
        iterate_pagerank fuel corpus d = some res → sumValues res = 1) := by
  have hN := corpus_length_ne_zero hne
  have hinit : ((keys corpus).map (initRank corpus)).sum = 1 := by
    rw [show (keys corpus).map (initRank corpus) =
        (keys corpus).map (fun _ => 1 / ((corpus.length : ℕ) : ℚ)) from rfl]
    rw [sum_map_const]
    have hkl : ((keys corpus).length : ℚ) = ((corpus.length : ℕ) : ℚ) := by
      simp [keys]
    rw [hkl]
    field_simp
  have hiter : ∀ k : ℕ, ((keys corpus).map
      ((sweep corpus d)^[k] (initRank corpus))).sum = 1 := by
    intro k
    induction k with
    | zero => simpa using hinit
    | succ k ih =>
      rw [Function.iterate_succ_apply']
      exact sweep_sum corpus d _ hne hwf ih
  refine ⟨fun pr h => sweep_sum corpus d pr hne hwf h, hinit, hiter, ?_⟩
  intro fuel res h
  rw [iterate_pagerank] at h
  cases hl : iterLoop corpus d fuel (initRank corpus) with
  | none => rw [hl] at h; simp at h
  | some r =>
    rw [hl] at h
    obtain rfl : corpus.map (fun e => (e.1, r e.1)) = res := Option.some.inj h
    obtain ⟨k, -, hr, -, -⟩ :=
      iterLoop_characterization corpus d fuel (initRank corpus) r hl
    have hv : sumValues (corpus.map (fun e => (e.1, r e.1))) =
        ((keys corpus).map r).sum := by
      rw [sumValues, sum_over_keys, List.map_map]
      rfl
    rw [hv, hr]
    exact hiter k

/-- C10 witness: on the concrete two-page graph `{A: {B}, B: {}}` the
hypotheses hold and, for instance, the third sweep's ranks sum to 1. -/
theorem iterate_pagerank_mass_conserved_witness :
    ((keys corpusAB).map
      ((sweep corpusAB (17/20))^[3] (initRank corpusAB))).sum = 1 :=
  (iterate_pagerank_mass_conserved corpusAB (17/20) (by decide)
    (by constructor
        · decide
        · decide)).2.2.1 3

/-- C8: the stateful embedding of `iterate_pagerank` is deterministic and
stateless: the result does not depend on the incoming program state (in
particular not on how far the random generator has advanced), the state
comes back unchanged, and a second call right after the first returns a
bit-identical result. -/
theorem iterate_pagerank_deterministic_stateless
    (s₁ s₂ : ProgState) (fuel : ℕ) (corpus : Corpus) (d : ℚ) :
    (iterate_pagerank_st s₁ fuel corpus d).2 =
      (iterate_pagerank_st s₂ fuel corpus d).2 ∧
    (iterate_pagerank_st s₁ fuel corpus d).1 = s₁ ∧
    (iterate_pagerank_st ((iterate_pagerank_st s₁ fuel corpus d).1)
        fuel corpus d).2 = (iterate_pagerank_st s₁ fuel corpus d).2 :=
  ⟨rfl, rfl, rfl⟩

/-! ### Concrete evaluation of the iterative estimator -/

lemma iterLoop_step (corpus : Corpus) (d : ℚ) (fuel : ℕ) (pr : Page → ℚ)
    (h : convergedB corpus pr (sweep corpus d pr) = false) :
    iterLoop corpus d (fuel + 1) pr = iterLoop corpus d fuel (sweep corpus d pr) := by
  simp only [iterLoop, h]
  simp

lemma iterLoop_stop (corpus : Corpus) (d : ℚ) (fuel : ℕ) (pr : Page → ℚ)
    (h : convergedB corpus pr (sweep corpus d pr) = true) :
    iterLoop corpus d (fuel + 1) pr = some (sweep corpus d pr) := by
  simp only [iterLoop, h]
  simp

lemma sweepAB_A (pr : Page → ℚ) :
    sweep corpusAB (17/20) pr "A" = 3/40 + 17/40 * pr "B" := by
  norm_num [sweep, contribution, corpusAB, pageAB]
  ring

lemma sweepAB_B (pr : Page → ℚ) :
    sweep corpusAB (17/20) pr "B" = 3/40 + 17/20 * pr "A" + 17/40 * pr "B" := by
  norm_num [sweep, contribution, corpusAB, pageBA]
  ring

lemma convergedB_AB_iff (old nw : Page → ℚ) :
    convergedB corpusAB old nw = true ↔
      |old "A" - nw "A"| ≤ 1/1000 ∧ |old "B" - nw "B"| ≤ 1/1000 := by
  simp [convergedB, corpusAB]

lemma sweepSingle_A (pr : Page → ℚ) :
    sweep corpusSingle (17/20) pr "A" = 3/20 + 17/20 * pr "A" := by
  norm_num [sweep, contribution, corpusSingle]

lemma convergedB_single_iff (old nw : Page → ℚ) :
    convergedB corpusSingle old nw = true ↔ |old "A" - nw "A"| ≤ 1/1000 := by
  simp [convergedB, corpusSingle]

/-- On the single-page graph `{A: {}}` the very first sweep reproduces
rank 1 exactly, so the loop stops after one sweep with `{A: 1}`. -/
lemma iterateSingle_eval :
    iterate_pagerank 1 corpusSingle (17/20) = some [("A", (1 : ℚ))] := by
  have h0A : initRank corpusSingle "A" = 1 := by
    norm_num [initRank, corpusSingle]
  have h1A : sweep corpusSingle (17/20) (initRank corpusSingle) "A" = 1 := by
    rw [sweepSingle_A, h0A]; norm_num
  have hc : convergedB corpusSingle (initRank corpusSingle)
      (sweep corpusSingle (17/20) (initRank corpusSingle)) = true := by
    rw [convergedB_single_iff, h0A, h1A]
    norm_num
  have hloop : iterLoop corpusSingle (17/20) 1 (initRank corpusSingle) =
      some (sweep corpusSingle (17/20) (initRank corpusSingle)) :=
    iterLoop_stop corpusSingle (17/20) 0 (initRank corpusSingle) hc
  rw [iterate_pagerank, hloop]
  simp only [Option.map_some']
  rw [show corpusSingle.map (fun e =>
      (e.1, sweep corpusSingle (17/20) (initRank corpusSingle) e.1)) =
      [("A", sweep corpusSingle (17/20) (initRank corpusSingle) "A")] from rfl]
  rw [h1A]

/-- Exact evaluation of the iterative estimator on `{A: {B}, B: {}}` with
d = 0.85: the loop runs eight synchronous sweeps and stops with
A = 4601098032921/13107200000000 ≈ 0.35104 and
B = 8506101967079/13107200000000 ≈ 0.64896. -/
lemma iterateAB_eval :
    iterate_pagerank 20 corpusAB (17/20) =
      some [("A", 4601098032921/13107200000000),
            ("B", 8506101967079/13107200000000)] := by
  have h0A : initRank corpusAB "A" = 1/2 := by norm_num [initRank, corpusAB]
  have h0B : initRank corpusAB "B" = 1/2 := by norm_num [initRank, corpusAB]
  have h1A : (sweep corpusAB (17/20) (initRank corpusAB)) "A" = 23/80 := by
    rw [sweepAB_A, h0B]; norm_num
  have h1B : (sweep corpusAB (17/20) (initRank corpusAB)) "B" = 57/80 := by
    rw [sweepAB_B, h0A, h0B]; norm_num
  have h2A : (sweep corpusAB (17/20) (sweep corpusAB (17/20) (initRank corpusAB))) "A" = 1209/3200 := by
    rw [sweepAB_A, h1B]; norm_num
  have h2B : (sweep corpusAB (17/20) (sweep corpusAB (17/20) (initRank corpusAB))) "B" = 1991/3200 := by
    rw [sweepAB_B, h1A, h1B]; norm_num
  have h3A : (sweep corpusAB (17/20) (sweep corpusAB (17/20) (sweep corpusAB (17/20) (initRank corpusAB)))) "A" = 43447/128000 := by
    rw [sweepAB_A, h2B]; norm_num
  have h3B : (sweep corpusAB (17/20) (sweep corpusAB (17/20) (sweep corpusAB (17/20) (initRank corpusAB)))) "B" = 84553/128000 := by
    rw [sweepAB_B, h2A, h2B]; norm_num
  have h4A : (sweep corpusAB (17/20) (sweep corpusAB (17/20) (sweep corpusAB (17/20) (sweep corpusAB (17/20) (initRank corpusAB))))) "A" = 1821401/5120000 := by
    rw [sweepAB_A, h3B]; norm_num
  have h4B : (sweep corpusAB (17/20) (sweep corpusAB (17/20) (sweep corpusAB (17/20) (sweep corpusAB (17/20) (initRank corpusAB))))) "B" = 3298599/5120000 := by
    rw [sweepAB_B, h3A, h3B]; norm_num
  have h5A : (sweep corpusAB (17/20) (sweep corpusAB (17/20) (sweep corpusAB (17/20) (sweep corpusAB (17/20) (sweep corpusAB (17/20) (initRank corpusAB)))))) "A" = 71436183/204800000 := by
    rw [sweepAB_A, h4B]; norm_num
  have h5B : (sweep corpusAB (17/20) (sweep corpusAB (17/20) (sweep corpusAB (17/20) (sweep corpusAB (17/20) (sweep corpusAB (17/20) (initRank corpusAB)))))) "B" = 133363817/204800000 := by
    rw [sweepAB_B, h4A, h4B]; norm_num
  have h6A : (sweep corpusAB (17/20) (sweep corpusAB (17/20) (sweep corpusAB (17/20) (sweep corpusAB (17/20) (sweep corpusAB (17/20) (sweep corpusAB (17/20) (initRank corpusAB))))))) "A" = 2881584889/8192000000 := by
    rw [sweepAB_A, h5B]; norm_num
  have h6B : (sweep corpusAB (17/20) (sweep corpusAB (17/20) (sweep corpusAB (17/20) (sweep corpusAB (17/20) (sweep corpusAB (17/20) (sweep corpusAB (17/20) (initRank corpusAB))))))) "B" = 5310415111/8192000000 := by
    rw [sweepAB_B, h5A, h5B]; norm_num
  have h7A : (sweep corpusAB (17/20) (sweep corpusAB (17/20) (sweep corpusAB (17/20) (sweep corpusAB (17/20) (sweep corpusAB (17/20) (sweep corpusAB (17/20) (sweep corpusAB (17/20) (initRank corpusAB)))))))) "A" = 114853056887/327680000000 := by
    rw [sweepAB_A, h6B]; norm_num
  have h7B : (sweep corpusAB (17/20) (sweep corpusAB (17/20) (sweep corpusAB (17/20) (sweep corpusAB (17/20) (sweep corpusAB (17/20) (sweep corpusAB (17/20) (sweep corpusAB (17/20) (initRank corpusAB)))))))) "B" = 212826943113/327680000000 := by
    rw [sweepAB_B, h6A, h6B]; norm_num
  have h8A : (sweep corpusAB (17/20) (sweep corpusAB (17/20) (sweep corpusAB (17/20) (sweep corpusAB (17/20) (sweep corpusAB (17/20) (sweep corpusAB (17/20) (sweep corpusAB (17/20) (sweep corpusAB (17/20) (initRank corpusAB))))))))) "A" = 4601098032921/13107200000000 := by
    rw [sweepAB_A, h7B]; norm_num
  have h8B : (sweep corpusAB (17/20) (sweep corpusAB (17/20) (sweep corpusAB (17/20) (sweep corpusAB (17/20) (sweep corpusAB (17/20) (sweep corpusAB (17/20) (sweep corpusAB (17/20) (sweep corpusAB (17/20) (initRank corpusAB))))))))) "B" = 8506101967079/13107200000000 := by
    rw [sweepAB_B, h7A, h7B]; norm_num
  have hc0 : convergedB corpusAB (initRank corpusAB) (sweep corpusAB (17/20) (initRank corpusAB)) = false := by
    rw [Bool.eq_false_iff]
    intro hx
    rw [convergedB_AB_iff, h0A, h0B, h1A, h1B,
      abs_sub_le_iff, abs_sub_le_iff] at hx
    norm_num at hx
  have hc1 : convergedB corpusAB (sweep corpusAB (17/20) (initRank corpusAB)) (sweep corpusAB (17/20) (sweep corpusAB (17/20) (initRank corpusAB))) = false := by
    rw [Bool.eq_false_iff]
    intro hx
    rw [convergedB_AB_iff, h1A, h1B, h2A, h2B,
      abs_sub_le_iff, abs_sub_le_iff] at hx
    norm_num at hx
  have hc2 : convergedB corpusAB (sweep corpusAB (17/20) (sweep corpusAB (17/20) (initRank corpusAB))) (sweep corpusAB (17/20) (sweep corpusAB (17/20) (sweep corpusAB (17/20) (initRank corpusAB)))) = false := by
    rw [Bool.eq_false_iff]
    intro hx
    rw [convergedB_AB_iff, h2A, h2B, h3A, h3B,
      abs_sub_le_iff, abs_sub_le_iff] at hx
    norm_num at hx
  have hc3 : convergedB corpusAB (sweep corpusAB (17/20) (sweep corpusAB (17/20) (sweep corpusAB (17/20) (initRank corpusAB)))) (sweep corpusAB (17/20) (sweep corpusAB (17/20) (sweep corpusAB (17/20) (sweep corpusAB (17/20) (initRank corpusAB))))) = false := by
    rw [Bool.eq_false_iff]
    intro hx
    rw [convergedB_AB_iff, h3A, h3B, h4A, h4B,
      abs_sub_le_iff, abs_sub_le_iff] at hx
    norm_num at hx
  have hc4 : convergedB corpusAB (sweep corpusAB (17/20) (sweep corpusAB (17/20) (sweep corpusAB (17/20) (sweep corpusAB (17/20) (initRank corpusAB))))) (sweep corpusAB (17/20) (sweep corpusAB (17/20) (sweep corpusAB (17/20) (sweep corpusAB (17/20) (sweep corpusAB (17/20) (initRank corpusAB)))))) = false := by
    rw [Bool.eq_false_iff]
    intro hx
    rw [convergedB_AB_iff, h4A, h4B, h5A, h5B,
      abs_sub_le_iff, abs_sub_le_iff] at hx
    norm_num at hx
  have hc5 : convergedB corpusAB (sweep corpusAB (17/20) (sweep corpusAB (17/20) (sweep corpusAB (17/20) (sweep corpusAB (17/20) (sweep corpusAB (17/20) (initRank corpusAB)))))) (sweep corpusAB (17/20) (sweep corpusAB (17/20) (sweep corpusAB (17/20) (sweep corpusAB (17/20) (sweep corpusAB (17/20) (sweep corpusAB (17/20) (initRank corpusAB))))))) = false := by
    rw [Bool.eq_false_iff]
    intro hx
    rw [convergedB_AB_iff, h5A, h5B, h6A, h6B,
      abs_sub_le_iff, abs_sub_le_iff] at hx
    norm_num at hx
  have hc6 : convergedB corpusAB (sweep corpusAB (17/20) (sweep corpusAB (17/20) (sweep corpusAB (17/20) (sweep corpusAB (17/20) (sweep corpusAB (17/20) (sweep corpusAB (17/20) (initRank corpusAB))))))) (sweep corpusAB (17/20) (sweep corpusAB (17/20) (sweep corpusAB (17/20) (sweep corpusAB (17/20) (sweep corpusAB (17/20) (sweep corpusAB (17/20) (sweep corpusAB (17/20) (initRank corpusAB)))))))) = false := by
    rw [Bool.eq_false_iff]
    intro hx
    rw [convergedB_AB_iff, h6A, h6B, h7A, h7B,
      abs_sub_le_iff, abs_sub_le_iff] at hx
    norm_num at hx
  have hc7 : convergedB corpusAB (sweep corpusAB (17/20) (sweep corpusAB (17/20) (sweep corpusAB (17/20) (sweep corpusAB (17/20) (sweep corpusAB (17/20) (sweep corpusAB (17/20) (sweep corpusAB (17/20) (initRank corpusAB)))))))) (sweep corpusAB (17/20) (sweep corpusAB (17/20) (sweep corpusAB (17/20) (sweep corpusAB (17/20) (sweep corpusAB (17/20) (sweep corpusAB (17/20) (sweep corpusAB (17/20) (sweep corpusAB (17/20) (initRank corpusAB))))))))) = true := by
    rw [convergedB_AB_iff, h7A, h7B, h8A, h8B, abs_sub_le_iff, abs_sub_le_iff]
    norm_num
  have e0 : iterLoop corpusAB (17/20) 20 (initRank corpusAB) =
      iterLoop corpusAB (17/20) 19 (sweep corpusAB (17/20) (initRank corpusAB)) :=
    iterLoop_step corpusAB (17/20) 19 (initRank corpusAB) hc0
  have e1 : iterLoop corpusAB (17/20) 19 (sweep corpusAB (17/20) (initRank corpusAB)) =
      iterLoop corpusAB (17/20) 18 (sweep corpusAB (17/20) (sweep corpusAB (17/20) (initRank corpusAB))) :=
    iterLoop_step corpusAB (17/20) 18 (sweep corpusAB (17/20) (initRank corpusAB)) hc1
  have e2 : iterLoop corpusAB (17/20) 18 (sweep corpusAB (17/20) (sweep corpusAB (17/20) (initRank corpusAB))) =
      iterLoop corpusAB (17/20) 17 (sweep corpusAB (17/20) (sweep corpusAB (17/20) (sweep corpusAB (17/20) (initRank corpusAB)))) :=
    iterLoop_step corpusAB (17/20) 17 (sweep corpusAB (17/20) (sweep corpusAB (17/20) (initRank corpusAB))) hc2
  have e3 : iterLoop corpusAB (17/20) 17 (sweep corpusAB (17/20) (sweep corpusAB (17/20) (sweep corpusAB (17/20) (initRank corpusAB)))) =
      iterLoop corpusAB (17/20) 16 (sweep corpusAB (17/20) (sweep corpusAB (17/20) (sweep corpusAB (17/20) (sweep corpusAB (17/20) (initRank corpusAB))))) :=
    iterLoop_step corpusAB (17/20) 16 (sweep corpusAB (17/20) (sweep corpusAB (17/20) (sweep corpusAB (17/20) (initRank corpusAB)))) hc3
  have e4 : iterLoop corpusAB (17/20) 16 (sweep corpusAB (17/20) (sweep corpusAB (17/20) (sweep corpusAB (17/20) (sweep corpusAB (17/20) (initRank corpusAB))))) =
      iterLoop corpusAB (17/20) 15 (sweep corpusAB (17/20) (sweep corpusAB (17/20) (sweep corpusAB (17/20) (sweep corpusAB (17/20) (sweep corpusAB (17/20) (initRank corpusAB)))))) :=
    iterLoop_step corpusAB (17/20) 15 (sweep corpusAB (17/20) (sweep corpusAB (17/20) (sweep corpusAB (17/20) (sweep corpusAB (17/20) (initRank corpusAB))))) hc4
  have e5 : iterLoop corpusAB (17/20) 15 (sweep corpusAB (17/20) (sweep corpusAB (17/20) (sweep corpusAB (17/20) (sweep corpusAB (17/20) (sweep corpusAB (17/20) (initRank corpusAB)))))) =
      iterLoop corpusAB (17/20) 14 (sweep corpusAB (17/20) (sweep corpusAB (17/20) (sweep corpusAB (17/20) (sweep corpusAB (17/20) (sweep corpusAB (17/20) (sweep corpusAB (17/20) (initRank corpusAB))))))) :=
    iterLoop_step corpusAB (17/20) 14 (sweep corpusAB (17/20) (sweep corpusAB (17/20) (sweep corpusAB (17/20) (sweep corpusAB (17/20) (sweep corpusAB (17/20) (initRank corpusAB)))))) hc5
  have e6 : iterLoop corpusAB (17/20) 14 (sweep corpusAB (17/20) (sweep corpusAB (17/20) (sweep corpusAB (17/20) (sweep corpusAB (17/20) (sweep corpusAB (17/20) (sweep corpusAB (17/20) (initRank corpusAB))))))) =
      iterLoop corpusAB (17/20) 13 (sweep corpusAB (17/20) (sweep corpusAB (17/20) (sweep corpusAB (17/20) (sweep corpusAB (17/20) (sweep corpusAB (17/20) (sweep corpusAB (17/20) (sweep corpusAB (17/20) (initRank corpusAB)))))))) :=
    iterLoop_step corpusAB (17/20) 13 (sweep corpusAB (17/20) (sweep corpusAB (17/20) (sweep corpusAB (17/20) (sweep corpusAB (17/20) (sweep corpusAB (17/20) (sweep corpusAB (17/20) (initRank corpusAB))))))) hc6
  have e7 : iterLoop corpusAB (17/20) 13 (sweep corpusAB (17/20) (sweep corpusAB (17/20) (sweep corpusAB (17/20) (sweep corpusAB (17/20) (sweep corpusAB (17/20) (sweep corpusAB (17/20) (sweep corpusAB (17/20) (initRank corpusAB)))))))) = some (sweep corpusAB (17/20) (sweep corpusAB (17/20) (sweep corpusAB (17/20) (sweep corpusAB (17/20) (sweep corpusAB (17/20) (sweep corpusAB (17/20) (sweep corpusAB (17/20) (sweep corpusAB (17/20) (initRank corpusAB))))))))) :=
    iterLoop_stop corpusAB (17/20) 12 (sweep corpusAB (17/20) (sweep corpusAB (17/20) (sweep corpusAB (17/20) (sweep corpusAB (17/20) (sweep corpusAB (17/20) (sweep corpusAB (17/20) (sweep corpusAB (17/20) (initRank corpusAB)))))))) hc7
  rw [iterate_pagerank, e0, e1, e2, e3, e4, e5, e6, e7]
  simp only [Option.map_some']
  rw [show corpusAB.map (fun e => (e.1, (sweep corpusAB (17/20) (sweep corpusAB (17/20) (sweep corpusAB (17/20) (sweep corpusAB (17/20) (sweep corpusAB (17/20) (sweep corpusAB (17/20) (sweep corpusAB (17/20) (sweep corpusAB (17/20) (initRank corpusAB))))))))) e.1)) =
      [("A", (sweep corpusAB (17/20) (sweep corpusAB (17/20) (sweep corpusAB (17/20) (sweep corpusAB (17/20) (sweep corpusAB (17/20) (sweep corpusAB (17/20) (sweep corpusAB (17/20) (sweep corpusAB (17/20) (initRank corpusAB))))))))) "A"), ("B", (sweep corpusAB (17/20) (sweep corpusAB (17/20) (sweep corpusAB (17/20) (sweep corpusAB (17/20) (sweep corpusAB (17/20) (sweep corpusAB (17/20) (sweep corpusAB (17/20) (sweep corpusAB (17/20) (initRank corpusAB))))))))) "B")] from rfl]
  rw [h8A, h8B]

/-- C5 (counterexample): on `{A: {B}, B: {}}` with d = 0.85 the iteration
converges, but the value it returns for A is ≈ 0.35104, much farther than
the 0.001 tolerance from the claimed 0.5. -/
theorem iterate_pagerank_dangling_pair_not_half :
    iterate_pagerank 20 corpusAB DAMPING =
      some [("A", 4601098032921/13107200000000),
            ("B", 8506101967079/13107200000000)] ∧
    ¬ (|(4601098032921/13107200000000 : ℚ) - 1/2| ≤ 1/1000) := by
  constructor
  · rw [show DAMPING = 17/20 from rfl]
    exact iterateAB_eval
  · rw [abs_sub_le_iff]
    norm_num

/-- C5 (amended): on `{A: {B}, B: {}}` with d = 0.85 the iteration
converges (within its 0.001 stopping tolerance) to the fixed point
`{A: 20/57 ≈ 0.3509, B: 37/57 ≈ 0.6491}` of the dangling-aware recurrence,
with total mass 1 — not to `{A: 0.5, B: 0.5}`. -/
theorem iterate_pagerank_dangling_pair_near_fixed_point :
    iterate_pagerank 20 corpusAB DAMPING =
      some [("A", 4601098032921/13107200000000),
            ("B", 8506101967079/13107200000000)] ∧
    |(4601098032921/13107200000000 : ℚ) - 20/57| ≤ 1/1000 ∧
    |(8506101967079/13107200000000 : ℚ) - 37/57| ≤ 1/1000 ∧
    (4601098032921/13107200000000 : ℚ) + 8506101967079/13107200000000 = 1 := by
  refine ⟨?_, ?_, ?_, by norm_num⟩
  · rw [show DAMPING = 17/20 from rfl]
    exact iterateAB_eval
  · rw [abs_sub_le_iff]
    constructor <;> norm_num
  · rw [abs_sub_le_iff]
    constructor <;> norm_num

/-- C6 witness: on the single-page graph the iteration stops after the
first sweep, and the characterization holds there. -/
theorem iterate_pagerank_synchronous_first_converged_witness :
    iterate_pagerank 1 corpusSingle (17/20) = some [("A", (1 : ℚ))] ∧
    ∃ k, 1 ≤ k ∧
      [("A", (1 : ℚ))] = corpusSingle.map
        (fun e => (e.1, (sweep corpusSingle (17/20))^[k] (initRank corpusSingle) e.1)) ∧
      convergedB corpusSingle
        ((sweep corpusSingle (17/20))^[k - 1] (initRank corpusSingle))
        ((sweep corpusSingle (17/20))^[k] (initRank corpusSingle)) = true ∧
      ∀ j, j + 1 < k →
        convergedB corpusSingle
          ((sweep corpusSingle (17/20))^[j] (initRank corpusSingle))
          ((sweep corpusSingle (17/20))^[j + 1] (initRank corpusSingle)) = false :=
  ⟨iterateSingle_eval,
    iterate_pagerank_synchronous_first_converged 1 corpusSingle (17/20)
      [("A", (1 : ℚ))] iterateSingle_eval⟩

end PageRank
